import Mathlib

/-!
Verification of the feature-resolution walker of the `cargo_metadata`
repository (`src/visit.rs`), against its natural-language specification.

The data model (`Package`, `Dependency`, `Metadata`) is embedded from
`src/lib.rs` and `src/dependency.rs`, keeping exactly the fields the walker
reads.  The walker itself (`FeatureWalker` and its `walk_*` methods) is
embedded line by line from `src/visit.rs`.  Rust's mutable visitor is
modelled by explicit state passing, `Result`/`?` by an `Outcome` that
short-circuits, `assert!` by a `panicked` outcome, and the unbounded
recursion of the walk by a fuel parameter (`outOfFuel` when exhausted).
Every visitor callback invocation is additionally recorded in a trace of
`VisitEvent`s, so that claims about which callbacks run, and in which
order, are statements about that trace.
-/

set_option autoImplicit false

namespace CargoMetadata

/-- Modelled from the spec: the `FeatureValue` type is used by `src/visit.rs`
(`use crate::FeatureValue`) but its definition is not among the sources; §3 of
the spec describes it as a closed set of three shapes for one requirement
token. -/
inductive FeatureValue where
  | Feature (name : String)
  | Dep (dep_name : String)
  | DepFeature (dep_name : String) (dep_feature : String) (weak : Bool)
deriving DecidableEq, Repr

/-- Splits a character list at the first `'/'`, returning the parts before and
after it, or `none` when no `'/'` occurs. -/
def splitOnceSlash : List Char → Option (List Char × List Char)
  | [] => none
  | c :: rest =>
    if c = '/' then some ([], rest)
    else
      match splitOnceSlash rest with
      | some (l, r) => some (c :: l, r)
      | none => none

/-- Whether a character list starts with the four characters `dep:`. -/
def hasDepColon : List Char → Bool
  | 'd' :: 'e' :: 'p' :: ':' :: _ => true
  | _ => false

/-- Modelled from the spec: `FeatureValue::new`, the requirement-token parser,
is not among the sources; §4.1 gives its contract.  A token with a `/` is a
`DepFeature` (split at the slash, a trailing `?` on the left segment stripped
into `weak = true`); otherwise a `dep:` prefix makes a `Dep` of the remainder,
and anything else is a plain `Feature`. -/
def FeatureValue.new (s : String) : FeatureValue :=
  match splitOnceSlash s.data with
  | some (dep, dep_feature) =>
    if dep.getLast? = some '?' then
      .DepFeature (String.mk dep.dropLast) (String.mk dep_feature) true
    else
      .DepFeature (String.mk dep) (String.mk dep_feature) false
  | none =>
    if hasDepColon s.data then .Dep (String.mk (s.data.drop 4)) else .Feature s

/-- Whether a `FeatureValue` is a plain `Feature`, as tested by the
`assert!(matches!(dep_feature, FeatureValue::Feature(_)))` lines of
`src/visit.rs`. -/
def FeatureValue.isFeature : FeatureValue → Bool
  | .Feature _ => true
  | _ => false

/-- `Dependency` from `src/dependency.rs`, keeping the fields the walker
reads: the crate `name`, the per-dependency `features` list requested in the
manifest, and the optional `rename`.  The remaining fields (`source`, `req`,
`kind`, `optional`, `uses_default_features`, `target`, `registry`, `path`)
are never read by `src/visit.rs` and are omitted. -/
structure Dependency where
  name : String
  features : List String
  rename : Option String
deriving DecidableEq, Repr

/-- `Package` from `src/lib.rs`, keeping the fields the walker reads: `name`,
`dependencies`, and the feature table `features` (a map from feature name to
the list of requirement strings; the Rust `HashMap` with unique keys is
modelled as an association list looked up by first match).  The remaining
fields (version, authors, id, targets, …) are never read by `src/visit.rs`
and are omitted. -/
structure Package where
  name : String
  dependencies : List Dependency
  features : List (String × List String)
deriving DecidableEq, Repr

/-- `Metadata` from `src/lib.rs`, keeping the field the walker reads. -/
structure Metadata where
  packages : List Package
deriving DecidableEq, Repr

/-- First-match lookup in an association list (the `get` of the Rust maps
used by the walker; both `HashMap` and `BTreeMap` keep keys unique, so first
match is the unique match). -/
def lookupAssoc {α : Type} : List (String × α) → String → Option α
  | [], _ => none
  | (k, v) :: rest, key => if k = key then some v else lookupAssoc rest key

/-- Key-replacing insertion into an association list: the behaviour of
`BTreeMap::insert` (and hence of collecting an iterator into a `BTreeMap`,
where a later pair with an equal key overwrites the earlier one). -/
def insertAssoc {α : Type} : List (String × α) → String → α → List (String × α)
  | [], key, v => [(key, v)]
  | (k, w) :: rest, key, v =>
    if k = key then (key, v) :: rest else (k, w) :: insertAssoc rest key v

/-- Modelled from the spec: `Package::get_dependency` is called by
`src/visit.rs` but not among the sources; §4.4 step 1 of the spec says the
lookup resolves `dep_name` against the package's own declared dependency
list by the local name used in the manifest (the rename when the dependency
is renamed, otherwise the crate name). -/
def Package.get_dependency (package : Package) (dep_name : String) : Option Dependency :=
  package.dependencies.find? (fun d => d.rename.getD d.name = dep_name)

/-- One visitor-callback invocation, as recorded in the trace of a walk.
There is one constructor per method of the `FeatureVisitor` trait of
`src/visit.rs`, carrying the arguments the walker passes to it. -/
inductive VisitEvent where
  | visit_missing_dependency (dep_name : String)
  | visit_missing_package (pkg_name : String)
  | visit_feature (package : Package) (feature_name : String)
  | visit_dep (package : Package) (dep_name : String)
  | visit_dep_feature (package : Package) (dep_name : String) (dep_feature : String) (weak : Bool)
deriving DecidableEq, Repr

/-- The `FeatureVisitor` trait of `src/visit.rs`: one function per callback,
with Rust's `&mut self` modelled as explicit state passing (each callback
takes the visitor state `σ` and returns the updated state) and `Result`
as `Except ε`.  The `Bool` of the three `visit_*` callbacks says whether to
keep expanding that requirement. -/
structure FeatureVisitor (σ ε : Type) where
  visit_missing_dependency : σ → String → σ × Except ε Unit
  visit_missing_package : σ → String → σ × Except ε Unit
  visit_feature : σ → Package → String → σ × Except ε Bool
  visit_dep : σ → Package → String → σ × Except ε Bool
  visit_dep_feature : σ → Package → String → String → Bool → σ × Except ε Bool

/-- Terminal status of (a piece of) a walk: `ok` for `Ok(())`, `err e` for an
`Err(e)` propagated by `?`, `panicked` for a failed `assert!`, and
`outOfFuel` when the fuel bounding the embedded recursion ran out (the Rust
recursion is unbounded; on an acyclic feature graph a large enough fuel never
reaches this). -/
inductive Outcome (ε : Type) where
  | ok
  | err (e : ε)
  | panicked
  | outOfFuel
deriving DecidableEq, Repr

/-- Converts a callback's `Result<(), E>` into an `Outcome` (the effect of
`return visitor.visit_missing_…(…)` or of `visitor.visit_missing_…(…)?`
followed by `Ok(())`). -/
def Outcome.ofExcept {ε : Type} : Except ε Unit → Outcome ε
  | .ok () => .ok
  | .error e => .err e

/-- Result of (a piece of) a walk: the trace of visitor callbacks it invoked
in order, the visitor state after it, and its terminal status. -/
structure WalkOut (σ ε : Type) where
  trace : List VisitEvent
  state : σ
  out : Outcome ε
deriving DecidableEq, Repr

/-- Sequencing of two walk pieces, as Rust's `?`: when `x` ends `ok` the
walk continues with `f` from `x`'s state and the traces concatenate; any
other status stops the walk there, so nothing of `f` runs. -/
def WalkOut.seq {σ ε : Type} (x : WalkOut σ ε) (f : σ → WalkOut σ ε) : WalkOut σ ε :=
  match x.out with
  | .ok =>
    let y := f x.state
    ⟨x.trace ++ y.trace, y.state, y.out⟩
  | _ => x

/-- Prepends one callback event to a walk piece's trace. -/
def WalkOut.withEvent {σ ε : Type} (ev : VisitEvent) (x : WalkOut σ ε) : WalkOut σ ε :=
  ⟨ev :: x.trace, x.state, x.out⟩

/-- The `FeatureWalker` of `src/visit.rs`: a name→package index over the
metadata. -/
structure FeatureWalker where
  packages_by_name : List (String × Package)

/-- `FeatureWalker::new` from `src/visit.rs`: collects
`(package.name, package)` over `metadata.packages` into a `BTreeMap`
(key-replacing insertion, so of same-named packages the last occurrence is
retained). -/
def FeatureWalker.new (metadata : Metadata) : FeatureWalker :=
  ⟨metadata.packages.foldl (fun m package => insertAssoc m package.name package) []⟩

/-!
The five `walk_*` methods of `FeatureWalker` are mutually recursive through
the dependency graph, and that recursion is unbounded (the source has no
cycle guard).  Each method is therefore embedded as a non-recursive *body*
that mirrors its Rust source line by line, taking as an extra argument
`recur` — the meaning of `self.walk_feature_value` at the remaining
recursion budget — and the knot is tied by one structural recursion on a
fuel counter in `FeatureWalker.walk_feature_value`.  With enough fuel this
computes exactly what the Rust recursion computes; exhausted fuel yields the
distinguished `outOfFuel` status and nothing else.
-/

section Walk

variable {σ ε : Type}

/-- The `for required_feature in required_features` loop of
`FeatureWalker::walk_feature`: each requirement string is parsed into a
`FeatureValue` (glue modelled from spec §4.4 step 3, the parse being absent
from the sources) and dispatched through `recur`, `?`-style. -/
def FeatureWalker.walk_feature_values_loop
    (recur : Package → FeatureValue → σ → WalkOut σ ε)
    (package : Package) : List String → σ → WalkOut σ ε
  | [], s => ⟨[], s, .ok⟩
  | required_feature :: rest, s =>
    let x := recur package (FeatureValue.new required_feature) s
    match x.out with
    | .ok =>
      let y := FeatureWalker.walk_feature_values_loop recur package rest x.state
      ⟨x.trace ++ y.trace, y.state, y.out⟩
    | _ => x

/-- The `for dep_feature in dependency.features` loops of
`FeatureWalker::walk_dep` and `walk_dep_feature`: each manifest-requested
feature string is parsed, `assert!`ed to be a plain `Feature` (a failed
assertion panics), and dispatched through `recur`, `?`-style. -/
def FeatureWalker.walk_assert_features_loop
    (recur : Package → FeatureValue → σ → WalkOut σ ε)
    (dep_package : Package) : List String → σ → WalkOut σ ε
  | [], s => ⟨[], s, .ok⟩
  | dep_feature :: rest, s =>
    let fv := FeatureValue.new dep_feature
    if fv.isFeature then
      let x := recur dep_package fv s
      match x.out with
      | .ok =>
        let y := FeatureWalker.walk_assert_features_loop recur dep_package rest x.state
        ⟨x.trace ++ y.trace, y.state, y.out⟩
      | _ => x
    else ⟨[], s, .panicked⟩

/-- Body of `FeatureWalker::walk_feature` (`src/visit.rs`): look up the
feature in the package's feature table (absent ⇒ silently `ok`), invoke
`visit_feature` (`Err` ⇒ abort with it, `false` ⇒ stop with `ok`), then walk
each requirement string of the feature's list through
`walk_feature_values_loop`. -/
def FeatureWalker.walk_feature_body (v : FeatureVisitor σ ε)
    (recur : Package → FeatureValue → σ → WalkOut σ ε)
    (package : Package) (feature_name : String) (s : σ) : WalkOut σ ε :=
  match lookupAssoc package.features feature_name with
  | none => ⟨[], s, .ok⟩
  | some required_features =>
    match v.visit_feature s package feature_name with
    | (s₁, .error e) => ⟨[.visit_feature package feature_name], s₁, .err e⟩
    | (s₁, .ok false) => ⟨[.visit_feature package feature_name], s₁, .ok⟩
    | (s₁, .ok true) =>
      WalkOut.withEvent (.visit_feature package feature_name)
        (FeatureWalker.walk_feature_values_loop recur package required_features s₁)

/-- Body of `FeatureWalker::walk_dep` (`src/visit.rs`): resolve the
dependency in the package's own list (absent ⇒ `visit_missing_dependency`
and stop), invoke `visit_dep` (`Err` ⇒ abort, `false` ⇒ stop with `ok`),
resolve the dependency's crate name in the index (absent ⇒
`visit_missing_package` and stop), then walk each manifest-requested feature
of the dependency under the assertion that it parses as a plain
`Feature`. -/
def FeatureWalker.walk_dep_body (w : FeatureWalker) (v : FeatureVisitor σ ε)
    (recur : Package → FeatureValue → σ → WalkOut σ ε)
    (package : Package) (dep_name : String) (s : σ) : WalkOut σ ε :=
  match package.get_dependency dep_name with
  | none =>
    match v.visit_missing_dependency s dep_name with
    | (s₁, r) => ⟨[.visit_missing_dependency dep_name], s₁, .ofExcept r⟩
  | some dependency =>
    match v.visit_dep s package dep_name with
    | (s₁, .error e) => ⟨[.visit_dep package dep_name], s₁, .err e⟩
    | (s₁, .ok false) => ⟨[.visit_dep package dep_name], s₁, .ok⟩
    | (s₁, .ok true) =>
      match lookupAssoc w.packages_by_name dependency.name with
      | some dep_package =>
        WalkOut.withEvent (.visit_dep package dep_name)
          (FeatureWalker.walk_assert_features_loop recur dep_package dependency.features s₁)
      | none =>
        match v.visit_missing_package s₁ dependency.name with
        | (s₂, r) =>
          ⟨[.visit_dep package dep_name, .visit_missing_package dependency.name], s₂, .ofExcept r⟩

/-- Body of `FeatureWalker::walk_dep_feature` (`src/visit.rs`): resolve the
dependency in the package's own list (absent ⇒ `visit_missing_dependency` and
stop), invoke `visit_dep_feature` (`Err` ⇒ abort, `false` ⇒ stop with `ok`),
resolve the dependency's crate name in the index (absent ⇒
`visit_missing_package` and stop), walk `dep_feature` (asserted to parse as a
plain `Feature`), and when the reference is strong (`weak = false`) also walk
each manifest-requested feature of the dependency. -/
def FeatureWalker.walk_dep_feature_body (w : FeatureWalker) (v : FeatureVisitor σ ε)
    (recur : Package → FeatureValue → σ → WalkOut σ ε)
    (package : Package) (dep_name : String) (dep_feature : String) (weak : Bool)
    (s : σ) : WalkOut σ ε :=
  match package.get_dependency dep_name with
  | none =>
    match v.visit_missing_dependency s dep_name with
    | (s₁, r) => ⟨[.visit_missing_dependency dep_name], s₁, .ofExcept r⟩
  | some dependency =>
    match v.visit_dep_feature s package dep_name dep_feature weak with
    | (s₁, .error e) => ⟨[.visit_dep_feature package dep_name dep_feature weak], s₁, .err e⟩
    | (s₁, .ok false) => ⟨[.visit_dep_feature package dep_name dep_feature weak], s₁, .ok⟩
    | (s₁, .ok true) =>
      match lookupAssoc w.packages_by_name dependency.name with
      | none =>
        match v.visit_missing_package s₁ dependency.name with
        | (s₂, r) =>
          ⟨[.visit_dep_feature package dep_name dep_feature weak,
            .visit_missing_package dependency.name], s₂, .ofExcept r⟩
      | some dep_package =>
        let fv := FeatureValue.new dep_feature
        if fv.isFeature then
          let x := recur dep_package fv s₁
          match x.out with
          | .ok =>
            if weak then
              WalkOut.withEvent (.visit_dep_feature package dep_name dep_feature weak) x
            else
              let y :=
                FeatureWalker.walk_assert_features_loop recur dep_package dependency.features
                  x.state
              WalkOut.withEvent (.visit_dep_feature package dep_name dep_feature weak)
                ⟨x.trace ++ y.trace, y.state, y.out⟩
          | _ => WalkOut.withEvent (.visit_dep_feature package dep_name dep_feature weak) x
        else ⟨[.visit_dep_feature package dep_name dep_feature weak], s₁, .panicked⟩

/-- `FeatureWalker::walk_feature_value` from `src/visit.rs`: pure dispatch on
the shape of the `FeatureValue`, tying the recursive knot of the three
walkers by structural recursion on the fuel `n` (one unit per dispatch, i.e.
per level of the Rust recursion). -/
def FeatureWalker.walk_feature_value (w : FeatureWalker) (v : FeatureVisitor σ ε)
    (n : Nat) : Package → FeatureValue → σ → WalkOut σ ε :=
  Nat.rec (motive := fun _ => Package → FeatureValue → σ → WalkOut σ ε)
    (fun _ _ s => ⟨[], s, .outOfFuel⟩)
    (fun _ recur package feature_value s =>
      match feature_value with
      | .Feature feature_name => FeatureWalker.walk_feature_body v recur package feature_name s
      | .Dep dep_name => FeatureWalker.walk_dep_body w v recur package dep_name s
      | .DepFeature dep_name dep_feature weak =>
        FeatureWalker.walk_dep_feature_body w v recur package dep_name dep_feature weak s)
    n

/-- `FeatureWalker::walk_feature` at fuel `n`: its body applied to the
recursion at fuel `n`. -/
def FeatureWalker.walk_feature (w : FeatureWalker) (v : FeatureVisitor σ ε)
    (n : Nat) (package : Package) (feature_name : String) (s : σ) : WalkOut σ ε :=
  FeatureWalker.walk_feature_body v (w.walk_feature_value v n) package feature_name s

/-- `FeatureWalker::walk_dep` at fuel `n`: its body applied to the recursion
at fuel `n`. -/
def FeatureWalker.walk_dep (w : FeatureWalker) (v : FeatureVisitor σ ε)
    (n : Nat) (package : Package) (dep_name : String) (s : σ) : WalkOut σ ε :=
  FeatureWalker.walk_dep_body w v (w.walk_feature_value v n) package dep_name s

/-- `FeatureWalker::walk_dep_feature` at fuel `n`: its body applied to the
recursion at fuel `n`. -/
def FeatureWalker.walk_dep_feature (w : FeatureWalker) (v : FeatureVisitor σ ε)
    (n : Nat) (package : Package) (dep_name : String) (dep_feature : String) (weak : Bool)
    (s : σ) : WalkOut σ ε :=
  FeatureWalker.walk_dep_feature_body w v (w.walk_feature_value v n) package dep_name dep_feature
    weak s

/-- `FeatureWalker::walk_package_features` from `src/visit.rs`: walk each of
the given feature names in order through `walk_feature`, `?`-style (the first
non-`ok` status stops the loop). -/
def FeatureWalker.walk_package_features (w : FeatureWalker) (v : FeatureVisitor σ ε)
    (n : Nat) (package : Package) : List String → σ → WalkOut σ ε
  | [], s => ⟨[], s, .ok⟩
  | feature_name :: rest, s =>
    let x := FeatureWalker.walk_feature w v n package feature_name s
    match x.out with
    | .ok =>
      let y := FeatureWalker.walk_package_features w v n package rest x.state
      ⟨x.trace ++ y.trace, y.state, y.out⟩
    | _ => x

end Walk

/-!
The C8 precondition: the walker re-parses dependency-declared feature
strings and the `dep_feature` segments of `DepFeature` tokens, asserting
each parses as a plain `Feature`.  "Plain" below is that precondition, and
the no-panic lemmas show the assertions can never fire on plain input.
-/

/-- Whether every manifest-requested feature string of a dependency parses
as a plain `Feature` (the property `walk_dep` and `walk_dep_feature`
`assert!`). -/
def Dependency.featuresPlain (d : Dependency) : Bool :=
  d.features.all (fun f => (FeatureValue.new f).isFeature)

/-- Whether a requirement token can only reach assertions that hold: for a
`DepFeature` token its `dep_feature` segment must itself parse as a plain
`Feature`; other shapes carry no segment to assert. -/
def FeatureValue.segmentPlain : FeatureValue → Bool
  | .DepFeature _ dep_feature _ => (FeatureValue.new dep_feature).isFeature
  | _ => true

/-- The C8 precondition for one package: every declared dependency's
manifest-requested feature list and every `dep_feature` segment in the
package's feature table parse as plain `Feature`s. -/
def Package.plain (package : Package) : Bool :=
  package.dependencies.all Dependency.featuresPlain &&
    package.features.all (fun kv => kv.2.all (fun r => (FeatureValue.new r).segmentPlain))

/-- The C8 precondition for a walker: every indexed package is plain. -/
def FeatureWalker.plain (w : FeatureWalker) : Bool :=
  w.packages_by_name.all (fun kv => kv.2.plain)

/-!
Concrete fixtures used by witnesses and counterexamples: a visitor over
trivial state that always continues, one that declines `visit_feature`, one
that fails it, and a few small metadata snapshots.
-/

/-- A visitor with trivial state that continues everywhere (the behaviour of
the trait's default methods together with no-op missing-handlers). -/
def unitVisitor : FeatureVisitor Unit Unit :=
  ⟨fun s _ => (s, .ok ()), fun s _ => (s, .ok ()), fun s _ _ => (s, .ok true),
   fun s _ _ => (s, .ok true), fun s _ _ _ _ => (s, .ok true)⟩

/-- A visitor that declines to expand the feature named `stop` and continues
everywhere else. -/
def stopVisitor (stop : String) : FeatureVisitor Unit Unit :=
  ⟨fun s _ => (s, .ok ()), fun s _ => (s, .ok ()),
   fun s _ f => (s, .ok (decide ¬(f = stop))),
   fun s _ _ => (s, .ok true), fun s _ _ _ _ => (s, .ok true)⟩

/-- A visitor that fails `visit_feature` on the feature named `bad` with the
error string `"boom"` and continues everywhere else. -/
def failVisitor (bad : String) : FeatureVisitor Unit String :=
  ⟨fun s _ => (s, .ok ()), fun s _ => (s, .ok ()),
   fun s _ f => (s, if f = bad then .error "boom" else .ok true),
   fun s _ _ => (s, .ok true), fun s _ _ _ _ => (s, .ok true)⟩

/-- An optional dependency record on the crate `optdep`, with one
manifest-requested feature `extra`. -/
def exDep : Dependency := ⟨"optdep", ["extra"], none⟩

/-- The package of the crate `optdep`, declaring features `feat` and
`extra`. -/
def exOptPkg : Package := ⟨"optdep", [], [("feat", []), ("extra", [])]⟩

/-- A root package declaring the dependency `optdep` and features exercising
every token shape. -/
def exPkg : Package :=
  ⟨"mypkg", [exDep],
   [("default", ["feat1"]), ("feat1", []),
    ("opt", ["dep:optdep"]),
    ("strong", ["optdep/feat"]), ("weak", ["optdep?/feat"])]⟩

/-- Metadata with both the root package and the `optdep` package. -/
def exMeta : Metadata := ⟨[exPkg, exOptPkg]⟩

/-- Metadata with the root package only: `optdep` is declared but absent from
the index. -/
def exMetaNoOpt : Metadata := ⟨[exPkg]⟩

/-- A dependency record violating the C8 precondition: its manifest-requested
feature list contains the string `a/b`, which does not parse as a plain
`Feature`. -/
def exDepBad : Dependency := ⟨"optdep", ["a/b"], none⟩

/-- A package declaring the violating dependency and a feature reaching
it. -/
def exPkgBad : Package := ⟨"badpkg", [exDepBad], [("f", ["dep:optdep"])]⟩

/-- Metadata with the violating package and the `optdep` package present in
the index (so the walk reaches the asserting loop). -/
def exMetaBad : Metadata := ⟨[exPkgBad, exOptPkg]⟩



section Lemmas

variable {σ ε : Type} {α : Type}

/-- Unfolding `walk_feature_value` at positive fuel on a `Feature`. -/
theorem FeatureWalker.walk_feature_value_succ_Feature (w : FeatureWalker)
    (v : FeatureVisitor σ ε) (n : Nat) (package : Package) (feature_name : String) (s : σ) :
    w.walk_feature_value v (n + 1) package (.Feature feature_name) s =
      w.walk_feature v n package feature_name s := rfl

/-- Unfolding `walk_feature_value` at positive fuel on a `Dep`. -/
theorem FeatureWalker.walk_feature_value_succ_Dep (w : FeatureWalker)
    (v : FeatureVisitor σ ε) (n : Nat) (package : Package) (dep_name : String) (s : σ) :
    w.walk_feature_value v (n + 1) package (.Dep dep_name) s =
      w.walk_dep v n package dep_name s := rfl

/-- Unfolding `walk_feature_value` at positive fuel on a `DepFeature`. -/
theorem FeatureWalker.walk_feature_value_succ_DepFeature (w : FeatureWalker)
    (v : FeatureVisitor σ ε) (n : Nat) (package : Package)
    (dep_name dep_feature : String) (weak : Bool) (s : σ) :
    w.walk_feature_value v (n + 1) package (.DepFeature dep_name dep_feature weak) s =
      w.walk_dep_feature v n package dep_name dep_feature weak s := rfl


/-- A successful association-list lookup returns an entry of the list. -/
theorem lookupAssoc_mem {l : List (String × α)} {key : String} {val : α}
    (h : lookupAssoc l key = some val) : (key, val) ∈ l := by
  induction l with
  | nil => simp [lookupAssoc] at h
  | cons kv rest ih =>
    obtain ⟨k, v⟩ := kv
    by_cases hk : k = key
    · subst hk
      simp [lookupAssoc] at h
      subst h
      exact List.mem_cons_self _ _
    · simp [lookupAssoc, hk] at h
      exact List.mem_cons_of_mem _ (ih h)

/-- A successful `get_dependency` returns one of the package's declared
dependencies. -/
theorem get_dependency_mem {package : Package} {dep_name : String} {dependency : Dependency}
    (h : package.get_dependency dep_name = some dependency) :
    dependency ∈ package.dependencies :=
  List.mem_of_find?_eq_some h

/-- `Outcome.ofExcept` never yields a panic. -/
theorem Outcome.ofExcept_ne_panicked {ε : Type} (r : Except ε Unit) :
    Outcome.ofExcept r ≠ Outcome.panicked := by
  cases r with
  | ok u => cases u; simp [Outcome.ofExcept]
  | error e => simp [Outcome.ofExcept]

/-- Walking a concatenation of feature-name lists is walking the first list
and, when that ends `ok`, continuing with the second from the reached
state. -/
theorem FeatureWalker.walk_package_features_append (w : FeatureWalker) (v : FeatureVisitor σ ε)
    (n : Nat) (package : Package) (l₁ l₂ : List String) (s : σ) :
    w.walk_package_features v n package (l₁ ++ l₂) s =
      (w.walk_package_features v n package l₁ s).seq
        (w.walk_package_features v n package l₂) := by
  induction l₁ generalizing s with
  | nil => simp [FeatureWalker.walk_package_features, WalkOut.seq]
  | cons a l ih =>
    simp only [List.cons_append, FeatureWalker.walk_package_features]
    cases hx : (w.walk_feature v n package a s).out with
    | ok =>
      cases hy : (w.walk_package_features v n package l
          (w.walk_feature v n package a s).state).out with
      | ok => simp [ih, WalkOut.seq, hx, hy, List.append_assoc]
      | err e => simp [ih, WalkOut.seq, hx, hy]
      | panicked => simp [ih, WalkOut.seq, hx, hy]
      | outOfFuel => simp [ih, WalkOut.seq, hx, hy]
    | err e => simp [WalkOut.seq, hx]
    | panicked => simp [WalkOut.seq, hx]
    | outOfFuel => simp [WalkOut.seq, hx]

/-- `walk_dep` on a dependency name the package does not declare reports the
missing dependency and stops with that callback's result. -/
theorem FeatureWalker.walk_dep_missing_dependency (w : FeatureWalker) (v : FeatureVisitor σ ε)
    (n : Nat) (package : Package) (dep_name : String) (s : σ)
    (h : package.get_dependency dep_name = none) :
    w.walk_dep v n package dep_name s =
      ⟨[.visit_missing_dependency dep_name], (v.visit_missing_dependency s dep_name).1,
        .ofExcept (v.visit_missing_dependency s dep_name).2⟩ := by
  simp [FeatureWalker.walk_dep, FeatureWalker.walk_dep_body, h]

/-- `walk_dep_feature` on a dependency name the package does not declare
reports the missing dependency and stops with that callback's result. -/
theorem FeatureWalker.walk_dep_feature_missing_dependency (w : FeatureWalker)
    (v : FeatureVisitor σ ε) (n : Nat) (package : Package)
    (dep_name dep_feature : String) (weak : Bool) (s : σ)
    (h : package.get_dependency dep_name = none) :
    w.walk_dep_feature v n package dep_name dep_feature weak s =
      ⟨[.visit_missing_dependency dep_name], (v.visit_missing_dependency s dep_name).1,
        .ofExcept (v.visit_missing_dependency s dep_name).2⟩ := by
  simp [FeatureWalker.walk_dep_feature, FeatureWalker.walk_dep_feature_body, h]

/-- `walk_dep` on a declared dependency whose crate is absent from the index,
with `visit_dep` continuing, reports the missing package (by crate name) and
stops with that callback's result. -/
theorem FeatureWalker.walk_dep_missing_package (w : FeatureWalker) (v : FeatureVisitor σ ε)
    (n : Nat) (package : Package) (dep_name : String) (dependency : Dependency) (s s₁ : σ)
    (h₁ : package.get_dependency dep_name = some dependency)
    (h₂ : lookupAssoc w.packages_by_name dependency.name = none)
    (hv : v.visit_dep s package dep_name = (s₁, .ok true)) :
    w.walk_dep v n package dep_name s =
      ⟨[.visit_dep package dep_name, .visit_missing_package dependency.name],
        (v.visit_missing_package s₁ dependency.name).1,
        .ofExcept (v.visit_missing_package s₁ dependency.name).2⟩ := by
  simp [FeatureWalker.walk_dep, FeatureWalker.walk_dep_body, h₁, hv, h₂]

/-- `walk_dep_feature` on a declared dependency whose crate is absent from
the index, with `visit_dep_feature` continuing, reports the missing package
(by crate name) right after the `visit_dep_feature` callback and stops with
the missing-package callback's result. -/
theorem FeatureWalker.walk_dep_feature_missing_package (w : FeatureWalker)
    (v : FeatureVisitor σ ε) (n : Nat) (package : Package)
    (dep_name dep_feature : String) (weak : Bool) (dependency : Dependency) (s s₁ : σ)
    (h₁ : package.get_dependency dep_name = some dependency)
    (h₂ : lookupAssoc w.packages_by_name dependency.name = none)
    (hv : v.visit_dep_feature s package dep_name dep_feature weak = (s₁, .ok true)) :
    w.walk_dep_feature v n package dep_name dep_feature weak s =
      ⟨[.visit_dep_feature package dep_name dep_feature weak,
        .visit_missing_package dependency.name],
        (v.visit_missing_package s₁ dependency.name).1,
        .ofExcept (v.visit_missing_package s₁ dependency.name).2⟩ := by
  simp [FeatureWalker.walk_dep_feature, FeatureWalker.walk_dep_feature_body, h₁, hv, h₂]

end Lemmas

/-- C5: for every package and every feature name absent from
`package.features`, `walk_feature` returns `Ok(())` and invokes no visitor
callback at all — empty trace, unchanged visitor state, `ok` status. -/
theorem C5_undeclared_feature_silently_ignored {σ ε : Type} (w : FeatureWalker)
    (v : FeatureVisitor σ ε) (n : Nat) (package : Package) (feature_name : String) (s : σ)
    (h : lookupAssoc package.features feature_name = none) :
    w.walk_feature v n package feature_name s = ⟨[], s, .ok⟩ := by
  simp [FeatureWalker.walk_feature, FeatureWalker.walk_feature_body, h]

/-- Witness for C5: the feature name `nosuch` is not declared by `exPkg`, and
walking it invokes nothing and succeeds. -/
theorem C5_undeclared_feature_silently_ignored_witness :
    lookupAssoc exPkg.features "nosuch" = none ∧
    (FeatureWalker.new exMeta).walk_feature unitVisitor 5 exPkg "nosuch" () = ⟨[], (), .ok⟩ :=
  ⟨by decide,
   C5_undeclared_feature_silently_ignored (FeatureWalker.new exMeta) unitVisitor 5 exPkg
     "nosuch" () (by decide)⟩

/-- C6: for every `Dep` or `DepFeature` token whose `dep_name` is not among
the package's declared dependencies, the walk invokes
`visit_missing_dependency(dep_name)` and performs no further expansion for
that token — the trace is exactly that one event and the step's status is the
callback's result. -/
theorem C6_missing_dependency_stops_token {σ ε : Type} (w : FeatureWalker)
    (v : FeatureVisitor σ ε) (n : Nat) (package : Package) (dep_name : String)
    (h : package.get_dependency dep_name = none) :
    (∀ s : σ, w.walk_dep v n package dep_name s =
      ⟨[.visit_missing_dependency dep_name], (v.visit_missing_dependency s dep_name).1,
        .ofExcept (v.visit_missing_dependency s dep_name).2⟩) ∧
    (∀ (dep_feature : String) (weak : Bool) (s : σ),
      w.walk_dep_feature v n package dep_name dep_feature weak s =
        ⟨[.visit_missing_dependency dep_name], (v.visit_missing_dependency s dep_name).1,
          .ofExcept (v.visit_missing_dependency s dep_name).2⟩) := by
  exact ⟨fun s => w.walk_dep_missing_dependency v n package dep_name s h,
    fun dep_feature weak s =>
      w.walk_dep_feature_missing_dependency v n package dep_name dep_feature weak s h⟩

/-- Witness for C6: `exPkg` declares no dependency named `nodecl`; walking
the tokens `dep:nodecl` and `nodecl/feat` each reports the missing
dependency and nothing else. -/
theorem C6_missing_dependency_stops_token_witness :
    exPkg.get_dependency "nodecl" = none ∧
    (FeatureWalker.new exMeta).walk_dep unitVisitor 5 exPkg "nodecl" () =
      ⟨[.visit_missing_dependency "nodecl"], (), .ok⟩ ∧
    (FeatureWalker.new exMeta).walk_dep_feature unitVisitor 5 exPkg "nodecl" "feat" false () =
      ⟨[.visit_missing_dependency "nodecl"], (), .ok⟩ :=
  ⟨by decide,
   (C6_missing_dependency_stops_token (FeatureWalker.new exMeta) unitVisitor 5 exPkg "nodecl"
     (by decide)).1 (),
   (C6_missing_dependency_stops_token (FeatureWalker.new exMeta) unitVisitor 5 exPkg "nodecl"
     (by decide)).2 "feat" false ()⟩

/-- C7: for every `Dep` or `DepFeature` token whose dependency is declared by
the package but whose underlying crate name is absent from the index, the
walk (once the visitor lets it proceed past the token's own callback)
invokes `visit_missing_package` with the dependency's underlying crate name
and performs no recursive expansion for that token — the trace ends at that
event and the step's status is the callback's result. -/
theorem C7_missing_package_stops_token {σ ε : Type} (w : FeatureWalker)
    (v : FeatureVisitor σ ε) (n : Nat) (package : Package) (dep_name : String)
    (dependency : Dependency)
    (h₁ : package.get_dependency dep_name = some dependency)
    (h₂ : lookupAssoc w.packages_by_name dependency.name = none) :
    (∀ s s₁ : σ, v.visit_dep s package dep_name = (s₁, .ok true) →
      w.walk_dep v n package dep_name s =
        ⟨[.visit_dep package dep_name, .visit_missing_package dependency.name],
          (v.visit_missing_package s₁ dependency.name).1,
          .ofExcept (v.visit_missing_package s₁ dependency.name).2⟩) ∧
    (∀ (dep_feature : String) (weak : Bool) (s s₁ : σ),
      v.visit_dep_feature s package dep_name dep_feature weak = (s₁, .ok true) →
      w.walk_dep_feature v n package dep_name dep_feature weak s =
        ⟨[.visit_dep_feature package dep_name dep_feature weak,
          .visit_missing_package dependency.name],
          (v.visit_missing_package s₁ dependency.name).1,
          .ofExcept (v.visit_missing_package s₁ dependency.name).2⟩) := by
  exact ⟨fun s s₁ hv => w.walk_dep_missing_package v n package dep_name dependency s s₁ h₁ h₂ hv,
    fun dep_feature weak s s₁ hv =>
      w.walk_dep_feature_missing_package v n package dep_name dep_feature weak dependency s s₁
        h₁ h₂ hv⟩

/-- Witness for C7: in `exMetaNoOpt` the dependency `optdep` is declared by
`exPkg` but its package is absent from the index; walking `dep:optdep` and
`optdep/feat` each reports the missing package and expands nothing. -/
theorem C7_missing_package_stops_token_witness :
    exPkg.get_dependency "optdep" = some exDep ∧
    lookupAssoc (FeatureWalker.new exMetaNoOpt).packages_by_name exDep.name = none ∧
    (FeatureWalker.new exMetaNoOpt).walk_dep unitVisitor 5 exPkg "optdep" () =
      ⟨[.visit_dep exPkg "optdep", .visit_missing_package "optdep"], (), .ok⟩ ∧
    (FeatureWalker.new exMetaNoOpt).walk_dep_feature unitVisitor 5 exPkg "optdep" "feat" false
        () =
      ⟨[.visit_dep_feature exPkg "optdep" "feat" false, .visit_missing_package "optdep"], (),
        .ok⟩ :=
  ⟨by decide, by decide,
   (C7_missing_package_stops_token (FeatureWalker.new exMetaNoOpt) unitVisitor 5 exPkg "optdep"
     exDep (by decide) (by decide)).1 () () rfl,
   (C7_missing_package_stops_token (FeatureWalker.new exMetaNoOpt) unitVisitor 5 exPkg "optdep"
     exDep (by decide) (by decide)).2 "feat" false () () rfl⟩

/-- C3: when `visit_feature` answers `Ok(false)` for a declared feature,
`walk_feature` reports success having invoked only that one callback —
nothing of the feature's requirement list is expanded — while the remaining
feature names passed to `walk_package_features` are still processed
independently from the reached state. -/
theorem C3_declined_feature_not_expanded {σ ε : Type} (w : FeatureWalker)
    (v : FeatureVisitor σ ε) (n : Nat) (package : Package) (names₁ names₂ : List String)
    (name : String) (reqs : List String) (s s₁ s₂ : σ) (tr₁ : List VisitEvent)
    (h₁ : w.walk_package_features v n package names₁ s = ⟨tr₁, s₁, .ok⟩)
    (h₂ : lookupAssoc package.features name = some reqs)
    (h₃ : v.visit_feature s₁ package name = (s₂, .ok false)) :
    w.walk_feature v n package name s₁ = ⟨[.visit_feature package name], s₂, .ok⟩ ∧
    w.walk_package_features v n package (names₁ ++ name :: names₂) s =
      ⟨tr₁ ++ .visit_feature package name ::
          (w.walk_package_features v n package names₂ s₂).trace,
        (w.walk_package_features v n package names₂ s₂).state,
        (w.walk_package_features v n package names₂ s₂).out⟩ := by
  have hwf : w.walk_feature v n package name s₁ = ⟨[.visit_feature package name], s₂, .ok⟩ := by
    simp [FeatureWalker.walk_feature, FeatureWalker.walk_feature_body, h₂, h₃]
  refine ⟨hwf, ?_⟩
  rw [FeatureWalker.walk_package_features_append, h₁]
  simp [WalkOut.seq, FeatureWalker.walk_package_features, hwf]

/-- Witness for C3: a visitor declining `default` walks
`["feat1", "default", "opt"]` on `exPkg` visiting `feat1`, then `default`
without its requirement `feat1` again, then the sibling `opt` normally. -/
theorem C3_declined_feature_not_expanded_witness :
    (FeatureWalker.new exMeta).walk_package_features (stopVisitor "default") 5 exPkg
        ["feat1"] () = ⟨[.visit_feature exPkg "feat1"], (), .ok⟩ ∧
    lookupAssoc exPkg.features "default" = some ["feat1"] ∧
    (stopVisitor "default").visit_feature () exPkg "default" = ((), .ok false) ∧
    (FeatureWalker.new exMeta).walk_feature (stopVisitor "default") 5 exPkg "default" () =
      ⟨[.visit_feature exPkg "default"], (), .ok⟩ ∧
    (FeatureWalker.new exMeta).walk_package_features (stopVisitor "default") 5 exPkg
        ["feat1", "default", "opt"] () =
      ⟨[.visit_feature exPkg "feat1"] ++ .visit_feature exPkg "default" ::
          ((FeatureWalker.new exMeta).walk_package_features (stopVisitor "default") 5 exPkg
            ["opt"] ()).trace,
        ((FeatureWalker.new exMeta).walk_package_features (stopVisitor "default") 5 exPkg
          ["opt"] ()).state,
        ((FeatureWalker.new exMeta).walk_package_features (stopVisitor "default") 5 exPkg
          ["opt"] ()).out⟩ :=
  have h := C3_declined_feature_not_expanded (FeatureWalker.new exMeta) (stopVisitor "default")
    5 exPkg ["feat1"] ["opt"] "default" ["feat1"] () () ()
    [.visit_feature exPkg "feat1"] (by decide) (by decide) rfl
  ⟨by decide, by decide, rfl, h.1, h.2⟩

/-- C4: an error raised by a visitor callback anywhere inside the walk of one
feature name aborts the entire `walk_package_features` call at once: the
remaining names are not walked, no further callback runs (the trace stops
with the erroring walk's trace), and the error value is returned exactly as
raised. -/
theorem C4_visitor_error_aborts_walk {σ ε : Type} (w : FeatureWalker) (v : FeatureVisitor σ ε)
    (n : Nat) (package : Package) (names₁ names₂ : List String) (name : String)
    (s s₁ s₂ : σ) (tr₁ tr₂ : List VisitEvent) (e : ε)
    (h₁ : w.walk_package_features v n package names₁ s = ⟨tr₁, s₁, .ok⟩)
    (h₂ : w.walk_feature v n package name s₁ = ⟨tr₂, s₂, .err e⟩) :
    w.walk_package_features v n package (names₁ ++ name :: names₂) s =
      ⟨tr₁ ++ tr₂, s₂, .err e⟩ := by
  rw [FeatureWalker.walk_package_features_append, h₁]
  simp [WalkOut.seq, FeatureWalker.walk_package_features, h₂]

/-- Witness for C4: a visitor failing on `feat1` with the string `"boom"`
aborts `walk_package_features` of `["default", "opt"]` on `exPkg` inside
`default`'s expansion, with `opt` never walked and the error propagated
unchanged. -/
theorem C4_visitor_error_aborts_walk_witness :
    (FeatureWalker.new exMeta).walk_feature (failVisitor "feat1") 5 exPkg "default" () =
      ⟨[.visit_feature exPkg "default", .visit_feature exPkg "feat1"], (), .err "boom"⟩ ∧
    (FeatureWalker.new exMeta).walk_package_features (failVisitor "feat1") 5 exPkg
        ["default", "opt"] () =
      ⟨[] ++ [.visit_feature exPkg "default", .visit_feature exPkg "feat1"], (),
        .err "boom"⟩ :=
  ⟨by decide,
   C4_visitor_error_aborts_walk (FeatureWalker.new exMeta) (failVisitor "feat1") 5 exPkg []
     ["opt"] "default" () () () [] [.visit_feature exPkg "default", .visit_feature exPkg "feat1"]
     "boom" rfl (by decide)⟩

/-- C2: for a declared dependency resolvable in the index, with the visitor
continuing, `walk_dep_feature` with `weak = false` recurses on the resolved
dependency package for `dep_feature` and then additionally over every
feature name in the dependency's manifest-requested feature list, whereas
`weak = true` recurses only on `dep_feature` and omits the
manifest-declared-feature expansion. -/
theorem C2_weak_omits_manifest_feature_expansion {σ ε : Type} (w : FeatureWalker)
    (v : FeatureVisitor σ ε) (n : Nat) (package : Package) (dep_name dep_feature : String)
    (dependency : Dependency) (dep_package : Package) (s s₁ t₁ : σ)
    (h₁ : package.get_dependency dep_name = some dependency)
    (h₂ : lookupAssoc w.packages_by_name dependency.name = some dep_package)
    (hf : FeatureValue.new dep_feature = .Feature dep_feature)
    (hs : v.visit_dep_feature s package dep_name dep_feature false = (s₁, .ok true))
    (hw : v.visit_dep_feature s package dep_name dep_feature true = (t₁, .ok true)) :
    w.walk_dep_feature v n package dep_name dep_feature false s =
      WalkOut.withEvent (.visit_dep_feature package dep_name dep_feature false)
        ((w.walk_feature_value v n dep_package (.Feature dep_feature) s₁).seq
          (FeatureWalker.walk_assert_features_loop (w.walk_feature_value v n) dep_package
            dependency.features)) ∧
    w.walk_dep_feature v n package dep_name dep_feature true s =
      WalkOut.withEvent (.visit_dep_feature package dep_name dep_feature true)
        (w.walk_feature_value v n dep_package (.Feature dep_feature) t₁) := by
  constructor
  · simp only [FeatureWalker.walk_dep_feature, FeatureWalker.walk_dep_feature_body, h₁, hs, h₂,
      hf, FeatureValue.isFeature, if_true]
    cases hx : (w.walk_feature_value v n dep_package (.Feature dep_feature) s₁).out <;>
      simp [WalkOut.seq, WalkOut.withEvent, hx]
  · simp only [FeatureWalker.walk_dep_feature, FeatureWalker.walk_dep_feature_body, h₁, hw, h₂,
      hf, FeatureValue.isFeature, if_true]
    cases hx : (w.walk_feature_value v n dep_package (.Feature dep_feature) t₁).out <;>
      simp [WalkOut.withEvent, hx]

/-- Witness for C2 on `exMeta`: walking `optdep/feat` from `exPkg` visits
`feat` and then the manifest-requested `extra` on the `optdep` package, while
`optdep?/feat` visits `feat` only. -/
theorem C2_weak_omits_manifest_feature_expansion_witness :
    exPkg.get_dependency "optdep" = some exDep ∧
    lookupAssoc (FeatureWalker.new exMeta).packages_by_name exDep.name = some exOptPkg ∧
    FeatureValue.new "feat" = .Feature "feat" ∧
    (FeatureWalker.new exMeta).walk_dep_feature unitVisitor 5 exPkg "optdep" "feat" false () =
      WalkOut.withEvent (.visit_dep_feature exPkg "optdep" "feat" false)
        (((FeatureWalker.new exMeta).walk_feature_value unitVisitor 5 exOptPkg
            (.Feature "feat") ()).seq
          (FeatureWalker.walk_assert_features_loop
            ((FeatureWalker.new exMeta).walk_feature_value unitVisitor 5) exOptPkg
            exDep.features)) ∧
    (FeatureWalker.new exMeta).walk_dep_feature unitVisitor 5 exPkg "optdep" "feat" true () =
      WalkOut.withEvent (.visit_dep_feature exPkg "optdep" "feat" true)
        ((FeatureWalker.new exMeta).walk_feature_value unitVisitor 5 exOptPkg
          (.Feature "feat") ()) :=
  have h := C2_weak_omits_manifest_feature_expansion (FeatureWalker.new exMeta) unitVisitor 5
    exPkg "optdep" "feat" exDep exOptPkg () () () (by decide) (by decide) (by decide) rfl rfl
  ⟨by decide, by decide, by decide, h.1, h.2⟩

/-- C9 counterexample: in `exMetaNoOpt` the dependency `optdep` is declared
by `exPkg` but absent from the index, yet walking the token
`optdep/feat` invokes `visit_dep_feature` — first, before
`visit_missing_package` — contradicting the claim that `visit_dep_feature`
is never called for such a token. -/
theorem C9_counterexample_visit_dep_feature_called :
    exPkg.get_dependency "optdep" = some exDep ∧
    lookupAssoc (FeatureWalker.new exMetaNoOpt).packages_by_name exDep.name = none ∧
    ((FeatureWalker.new exMetaNoOpt).walk_dep_feature unitVisitor 5 exPkg "optdep" "feat"
        false ()).trace =
      [.visit_dep_feature exPkg "optdep" "feat" false, .visit_missing_package "optdep"] :=
  ⟨by decide, by decide, by decide⟩

/-- C9 (amended): `walk_dep_feature` resolves the dependency record first
(reporting `visit_missing_dependency` and stopping when the package never
declared it), then invokes `visitor.visit_dep_feature`, and only after that
callback resolves the target package in the index — so for a declared
dependency whose package is absent from the index, `visit_dep_feature` is
invoked and then `visit_missing_package`, with no further expansion for that
token. -/
theorem C9_amended_dep_feature_callback_order {σ ε : Type} (w : FeatureWalker)
    (v : FeatureVisitor σ ε) (n : Nat) (package : Package)
    (dep_name dep_feature : String) (weak : Bool) :
    (package.get_dependency dep_name = none → ∀ s : σ,
      w.walk_dep_feature v n package dep_name dep_feature weak s =
        ⟨[.visit_missing_dependency dep_name], (v.visit_missing_dependency s dep_name).1,
          .ofExcept (v.visit_missing_dependency s dep_name).2⟩) ∧
    (∀ dependency : Dependency, package.get_dependency dep_name = some dependency →
      lookupAssoc w.packages_by_name dependency.name = none →
      ∀ s s₁ : σ, v.visit_dep_feature s package dep_name dep_feature weak = (s₁, .ok true) →
      w.walk_dep_feature v n package dep_name dep_feature weak s =
        ⟨[.visit_dep_feature package dep_name dep_feature weak,
          .visit_missing_package dependency.name],
          (v.visit_missing_package s₁ dependency.name).1,
          .ofExcept (v.visit_missing_package s₁ dependency.name).2⟩) :=
  ⟨fun h s => w.walk_dep_feature_missing_dependency v n package dep_name dep_feature weak s h,
   fun dependency h₁ h₂ s s₁ hv =>
     w.walk_dep_feature_missing_package v n package dep_name dep_feature weak dependency s s₁
       h₁ h₂ hv⟩

/-- Witness for the amended C9: on `exMetaNoOpt`, walking `nodecl/feat`
reports only the missing dependency, and walking `optdep/feat` invokes
`visit_dep_feature` and then reports the missing package. -/
theorem C9_amended_dep_feature_callback_order_witness :
    exPkg.get_dependency "nodecl" = none ∧
    (FeatureWalker.new exMetaNoOpt).walk_dep_feature unitVisitor 5 exPkg "nodecl" "feat"
        false () = ⟨[.visit_missing_dependency "nodecl"], (), .ok⟩ ∧
    (FeatureWalker.new exMetaNoOpt).walk_dep_feature unitVisitor 5 exPkg "optdep" "feat"
        false () =
      ⟨[.visit_dep_feature exPkg "optdep" "feat" false, .visit_missing_package "optdep"], (),
        .ok⟩ :=
  have h := C9_amended_dep_feature_callback_order (FeatureWalker.new exMetaNoOpt) unitVisitor 5
    exPkg "nodecl" "feat" false
  have h' := C9_amended_dep_feature_callback_order (FeatureWalker.new exMetaNoOpt) unitVisitor 5
    exPkg "optdep" "feat" false
  ⟨by decide, h.1 (by decide) (), h'.2 exDep (by decide) (by decide) () () rfl⟩

section ParserLemmas

/-- A character list without a slash has no split. -/
theorem splitOnceSlash_eq_none {l : List Char} (h : '/' ∉ l) : splitOnceSlash l = none := by
  induction l with
  | nil => rfl
  | cons c rest ih =>
    simp only [List.mem_cons, not_or] at h
    have hc : ¬(c = '/') := fun hc => h.1 hc.symm
    simp [splitOnceSlash, hc, ih h.2]

/-- Splitting at the unique slash returns the two surrounding segments. -/
theorem splitOnceSlash_append {l : List Char} (r : List Char) (h : '/' ∉ l) :
    splitOnceSlash (l ++ '/' :: r) = some (l, r) := by
  induction l with
  | nil => simp [splitOnceSlash]
  | cons c rest ih =>
    simp only [List.mem_cons, not_or] at h
    have hc : ¬(c = '/') := fun hc => h.1 hc.symm
    simp [splitOnceSlash, hc, ih h.2]

end ParserLemmas

/-- C1: the `FeatureValue` parser maps a slash-free token without the `dep:`
prefix to `Feature(s)`; a slash-free token with the `dep:` prefix to
`Dep(s[4..])`; and a token with exactly one `/` to a `DepFeature` of the two
segments, `weak` exactly when the left segment ends in `?` (stripped from
`dep_name`); in particular on `serde`, `dep:serde`, `serde/derive` and
`serde?/derive`. -/
theorem C1_feature_value_parser_contract :
    (∀ s : String, '/' ∉ s.data → hasDepColon s.data = false →
      FeatureValue.new s = .Feature s) ∧
    (∀ s : String, '/' ∉ s.data → hasDepColon s.data = true →
      FeatureValue.new s = .Dep (String.mk (s.data.drop 4))) ∧
    (∀ (s : String) (left right : List Char), s.data = left ++ '/' :: right →
      '/' ∉ left → '/' ∉ right →
      (left.getLast? = some '?' →
        FeatureValue.new s = .DepFeature (String.mk left.dropLast) (String.mk right) true) ∧
      (left.getLast? ≠ some '?' →
        FeatureValue.new s = .DepFeature (String.mk left) (String.mk right) false)) ∧
    FeatureValue.new "serde" = .Feature "serde" ∧
    FeatureValue.new "dep:serde" = .Dep "serde" ∧
    FeatureValue.new "serde/derive" = .DepFeature "serde" "derive" false ∧
    FeatureValue.new "serde?/derive" = .DepFeature "serde" "derive" true := by
  refine ⟨?_, ?_, ?_, by decide, by decide, by decide, by decide⟩
  · intro s hs hd
    simp [FeatureValue.new, splitOnceSlash_eq_none hs, hd]
  · intro s hs hd
    simp [FeatureValue.new, splitOnceSlash_eq_none hs, hd]
  · intro s left right hdata hl hr
    constructor
    · intro hq
      simp [FeatureValue.new, hdata, splitOnceSlash_append right hl, hq]
    · intro hq
      simp [FeatureValue.new, hdata, splitOnceSlash_append right hl, hq]

/-- Witness for C1, instantiating each clause of the contract on a concrete
token. -/
theorem C1_feature_value_parser_contract_witness :
    FeatureValue.new "serde" = .Feature "serde" ∧
    FeatureValue.new "dep:serde" = .Dep (String.mk ("dep:serde".data.drop 4)) ∧
    FeatureValue.new "serde?/derive" = .DepFeature (String.mk ['s', 'e', 'r', 'd', 'e'])
      (String.mk ['d', 'e', 'r', 'i', 'v', 'e']) true ∧
    FeatureValue.new "serde/derive" = .DepFeature (String.mk ['s', 'e', 'r', 'd', 'e'])
      (String.mk ['d', 'e', 'r', 'i', 'v', 'e']) false :=
  ⟨C1_feature_value_parser_contract.1 "serde" (by decide) (by decide),
   C1_feature_value_parser_contract.2.1 "dep:serde" (by decide) (by decide),
   (C1_feature_value_parser_contract.2.2.1 "serde?/derive" ['s', 'e', 'r', 'd', 'e', '?']
     ['d', 'e', 'r', 'i', 'v', 'e'] (by decide) (by decide) (by decide)).1 (by decide),
   (C1_feature_value_parser_contract.2.2.1 "serde/derive" ['s', 'e', 'r', 'd', 'e']
     ['d', 'e', 'r', 'i', 'v', 'e'] (by decide) (by decide) (by decide)).2 (by decide)⟩

section IndexLemmas

variable {α : Type}

/-- Looking a key up after a key-replacing insertion: the inserted value for
that key, any other key unchanged. -/
theorem lookupAssoc_insertAssoc (l : List (String × α)) (k key : String) (v : α) :
    lookupAssoc (insertAssoc l k v) key = if k = key then some v else lookupAssoc l key := by
  induction l with
  | nil => simp [insertAssoc, lookupAssoc]
  | cons kv rest ih =>
    obtain ⟨k', v'⟩ := kv
    by_cases h : k' = k
    · subst h
      by_cases hk : k' = key <;> simp [insertAssoc, lookupAssoc, hk]
    · by_cases hk : k' = key
      · subst hk
        have : ¬(k = k') := fun hkk => h hkk.symm
        simp [insertAssoc, lookupAssoc, h, this]
      · simp [insertAssoc, lookupAssoc, h, hk, ih]

/-- Every entry of `insertAssoc l k v` either has key `k` or was an entry of
`l`. -/
theorem insertAssoc_mem {l : List (String × α)} {k : String} {v : α} {x : String × α}
    (h : x ∈ insertAssoc l k v) : x.1 = k ∨ x ∈ l := by
  induction l with
  | nil =>
    simp [insertAssoc] at h
    subst h
    exact Or.inl rfl
  | cons kv rest ih =>
    obtain ⟨k', v'⟩ := kv
    by_cases hk : k' = k
    · subst hk
      rw [show insertAssoc ((k', v') :: rest) k' v = (k', v) :: rest by
        simp [insertAssoc]] at h
      rcases List.mem_cons.mp h with h1 | h1
      · exact Or.inl (congrArg Prod.fst h1)
      · exact Or.inr (List.mem_cons_of_mem _ h1)
    · rw [show insertAssoc ((k', v') :: rest) k v = (k', v') :: insertAssoc rest k v by
        simp [insertAssoc, hk]] at h
      rcases List.mem_cons.mp h with h1 | h1
      · exact Or.inr (h1 ▸ List.mem_cons_self _ _)
      · rcases ih h1 with h' | h'
        · exact Or.inl h'
        · exact Or.inr (List.mem_cons_of_mem _ h')

/-- Key-replacing insertion preserves key distinctness. -/
theorem insertAssoc_pairwise {l : List (String × α)} (k : String) (v : α)
    (h : List.Pairwise (fun a b => a.1 ≠ b.1) l) :
    List.Pairwise (fun a b => a.1 ≠ b.1) (insertAssoc l k v) := by
  induction l with
  | nil => simp [insertAssoc]
  | cons kv rest ih =>
    obtain ⟨k', v'⟩ := kv
    rcases List.pairwise_cons.1 h with ⟨hhead, htail⟩
    by_cases hk : k' = k
    · subst hk
      simp only [insertAssoc, if_pos rfl]
      exact List.pairwise_cons.2 ⟨fun x hx => hhead x hx, htail⟩
    · simp only [insertAssoc, if_neg hk]
      refine List.pairwise_cons.2 ⟨?_, ih htail⟩
      intro x hx
      rcases insertAssoc_mem hx with h1 | h1
      · rw [h1]; exact hk
      · exact hhead x h1

/-- Lookup in the index built by folding key-replacing insertions: the last
package of the list with the looked-up name wins, falling back to the
accumulator. -/
theorem lookupAssoc_foldl_insertAssoc (packages : List Package)
    (acc : List (String × Package)) (key : String) :
    lookupAssoc (packages.foldl (fun m package => insertAssoc m package.name package) acc) key =
      (packages.reverse.find? (fun package => package.name = key)).or
        (lookupAssoc acc key) := by
  induction packages generalizing acc with
  | nil => simp
  | cons p l ih =>
    simp only [List.foldl_cons, List.reverse_cons]
    rw [ih, List.find?_append]
    cases h : l.reverse.find? (fun package => decide (package.name = key)) with
    | some q => simp [Option.or]
    | none =>
      by_cases hp : p.name = key
      · simp [Option.or, List.find?, hp, lookupAssoc_insertAssoc]
      · simp [Option.or, List.find?, hp, lookupAssoc_insertAssoc]

end IndexLemmas

/-- C10: when several packages of the metadata share a name, the index built
by `FeatureWalker::new` keeps exactly one entry per name — resolving every
name to the *last* package of `metadata.packages` carrying it (later
entries overwrite earlier ones during map construction). -/
theorem C10_duplicate_package_names_last_wins (metadata : Metadata) (name : String) :
    lookupAssoc (FeatureWalker.new metadata).packages_by_name name =
      metadata.packages.reverse.find? (fun package => package.name = name) ∧
    List.Pairwise (fun a b => a.1 ≠ b.1) (FeatureWalker.new metadata).packages_by_name := by
  constructor
  · rw [FeatureWalker.new, lookupAssoc_foldl_insertAssoc]
    cases metadata.packages.reverse.find? (fun package => decide (package.name = name)) <;>
      simp [Option.or, lookupAssoc]
  · rw [FeatureWalker.new]
    generalize metadata.packages = l
    have : List.Pairwise (fun (a b : String × Package) => a.1 ≠ b.1) [] := List.Pairwise.nil
    revert this
    generalize ([] : List (String × Package)) = acc
    intro hacc
    induction l generalizing acc with
    | nil => exact hacc
    | cons p l ih => exact ih _ (insertAssoc_pairwise _ _ hacc)

/-- A plain `Feature` has nothing to assert. -/
theorem FeatureValue.segmentPlain_of_isFeature {fv : FeatureValue}
    (h : fv.isFeature = true) : fv.segmentPlain = true := by
  cases fv <;> simp_all [FeatureValue.isFeature, FeatureValue.segmentPlain]

section NoPanic

variable {σ ε : Type}

/-- The requirement loop of `walk_feature` cannot panic when the dispatch
cannot and every requirement string's segment is plain. -/
theorem walk_feature_values_loop_no_panic
    {recur : Package → FeatureValue → σ → WalkOut σ ε}
    (hrec : ∀ (package : Package) (fv : FeatureValue) (s : σ), package.plain = true →
      fv.segmentPlain = true → (recur package fv s).out ≠ Outcome.panicked)
    {package : Package} (hp : package.plain = true) (reqs : List String)
    (hreqs : ∀ r ∈ reqs, (FeatureValue.new r).segmentPlain = true) :
    ∀ s : σ,
      (FeatureWalker.walk_feature_values_loop recur package reqs s).out ≠ Outcome.panicked := by
  induction reqs with
  | nil => intro s; simp [FeatureWalker.walk_feature_values_loop]
  | cons r rest ih =>
    intro s
    have hxne := hrec package (FeatureValue.new r) s hp (hreqs r (List.mem_cons_self r rest))
    simp only [FeatureWalker.walk_feature_values_loop]
    cases hx : (recur package (FeatureValue.new r) s).out with
    | ok =>
      simp only [hx]
      exact ih (fun q hq => hreqs q (List.mem_cons_of_mem _ hq)) _
    | err e => simp [hx]
    | panicked => exact absurd hx hxne
    | outOfFuel => simp [hx]

/-- The asserting loop over a dependency's manifest-requested features cannot
panic when the dispatch cannot and every entry parses as a plain
`Feature`. -/
theorem walk_assert_features_loop_no_panic
    {recur : Package → FeatureValue → σ → WalkOut σ ε}
    (hrec : ∀ (package : Package) (fv : FeatureValue) (s : σ), package.plain = true →
      fv.segmentPlain = true → (recur package fv s).out ≠ Outcome.panicked)
    {dep_package : Package} (hp : dep_package.plain = true) (fs : List String)
    (hfs : ∀ f ∈ fs, (FeatureValue.new f).isFeature = true) :
    ∀ s : σ,
      (FeatureWalker.walk_assert_features_loop recur dep_package fs s).out ≠
        Outcome.panicked := by
  induction fs with
  | nil => intro s; simp [FeatureWalker.walk_assert_features_loop]
  | cons f rest ih =>
    intro s
    have hf := hfs f (List.mem_cons_self f rest)
    have hxne := hrec dep_package (FeatureValue.new f) s hp
      (FeatureValue.segmentPlain_of_isFeature hf)
    simp only [FeatureWalker.walk_assert_features_loop, hf, if_true]
    cases hx : (recur dep_package (FeatureValue.new f) s).out with
    | ok =>
      simp only [hx]
      exact ih (fun q hq => hfs q (List.mem_cons_of_mem _ hq)) _
    | err e => simp [hx]
    | panicked => exact absurd hx hxne
    | outOfFuel => simp [hx]

/-- `walk_feature_body` cannot panic on a plain package when the dispatch
cannot. -/
theorem walk_feature_body_no_panic (v : FeatureVisitor σ ε)
    {recur : Package → FeatureValue → σ → WalkOut σ ε}
    (hrec : ∀ (package : Package) (fv : FeatureValue) (s : σ), package.plain = true →
      fv.segmentPlain = true → (recur package fv s).out ≠ Outcome.panicked)
    {package : Package} (hp : package.plain = true) (feature_name : String) (s : σ) :
    (FeatureWalker.walk_feature_body v recur package feature_name s).out ≠
      Outcome.panicked := by
  unfold FeatureWalker.walk_feature_body
  cases hl : lookupAssoc package.features feature_name with
  | none => simp
  | some reqs =>
    have hreqs : ∀ r ∈ reqs, (FeatureValue.new r).segmentPlain = true := by
      have h2 := hp
      rw [Package.plain, Bool.and_eq_true] at h2
      have h2 := h2.2
      rw [List.all_eq_true] at h2
      have h3 := h2 (feature_name, reqs) (lookupAssoc_mem hl)
      rw [List.all_eq_true] at h3
      exact h3
    rcases hveq : v.visit_feature s package feature_name with ⟨s₁, r⟩
    cases r with
    | error e => simp [hveq]
    | ok b =>
      cases b with
      | false => simp [hveq]
      | true =>
        simp only [hveq, WalkOut.withEvent]
        exact walk_feature_values_loop_no_panic hrec hp reqs hreqs s₁

/-- `walk_dep_body` cannot panic on a plain package of a plain walker when
the dispatch cannot. -/
theorem walk_dep_body_no_panic (w : FeatureWalker) (v : FeatureVisitor σ ε)
    {recur : Package → FeatureValue → σ → WalkOut σ ε}
    (hrec : ∀ (package : Package) (fv : FeatureValue) (s : σ), package.plain = true →
      fv.segmentPlain = true → (recur package fv s).out ≠ Outcome.panicked)
    (hw : w.plain = true) {package : Package} (hp : package.plain = true)
    (dep_name : String) (s : σ) :
    (FeatureWalker.walk_dep_body w v recur package dep_name s).out ≠ Outcome.panicked := by
  unfold FeatureWalker.walk_dep_body
  cases hd : package.get_dependency dep_name with
  | none =>
    rcases hmd : v.visit_missing_dependency s dep_name with ⟨s₁, r⟩
    simpa [hmd] using Outcome.ofExcept_ne_panicked r
  | some dependency =>
    rcases hveq : v.visit_dep s package dep_name with ⟨s₁, r⟩
    cases r with
    | error e => simp [hveq]
    | ok b =>
      cases b with
      | false => simp [hveq]
      | true =>
        cases hidx : lookupAssoc w.packages_by_name dependency.name with
        | some dep_package =>
          have hdp : dep_package.plain = true := by
            have h1 := hw
            rw [FeatureWalker.plain, List.all_eq_true] at h1
            exact h1 (dependency.name, dep_package) (lookupAssoc_mem hidx)
          have hdf : ∀ f ∈ dependency.features, (FeatureValue.new f).isFeature = true := by
            have h1 := hp
            rw [Package.plain, Bool.and_eq_true] at h1
            have h1 := h1.1
            rw [List.all_eq_true] at h1
            have h2 := h1 dependency (get_dependency_mem hd)
            rw [Dependency.featuresPlain, List.all_eq_true] at h2
            exact h2
          simp only [hveq, hidx, WalkOut.withEvent]
          exact walk_assert_features_loop_no_panic hrec hdp dependency.features hdf s₁
        | none =>
          rcases hmp : v.visit_missing_package s₁ dependency.name with ⟨s₂, r⟩
          simpa [hveq, hidx, hmp] using Outcome.ofExcept_ne_panicked r

/-- `walk_dep_feature_body` cannot panic on a plain package of a plain walker
when the `dep_feature` segment parses as a plain `Feature` and the dispatch
cannot. -/
theorem walk_dep_feature_body_no_panic (w : FeatureWalker) (v : FeatureVisitor σ ε)
    {recur : Package → FeatureValue → σ → WalkOut σ ε}
    (hrec : ∀ (package : Package) (fv : FeatureValue) (s : σ), package.plain = true →
      fv.segmentPlain = true → (recur package fv s).out ≠ Outcome.panicked)
    (hw : w.plain = true) {package : Package} (hp : package.plain = true)
    (dep_name : String) {dep_feature : String}
    (hseg : (FeatureValue.new dep_feature).isFeature = true) (weak : Bool) (s : σ) :
    (FeatureWalker.walk_dep_feature_body w v recur package dep_name dep_feature weak s).out ≠
      Outcome.panicked := by
  unfold FeatureWalker.walk_dep_feature_body
  cases hd : package.get_dependency dep_name with
  | none =>
    rcases hmd : v.visit_missing_dependency s dep_name with ⟨s₁, r⟩
    simpa [hmd] using Outcome.ofExcept_ne_panicked r
  | some dependency =>
    rcases hveq : v.visit_dep_feature s package dep_name dep_feature weak with ⟨s₁, r⟩
    cases r with
    | error e => simp [hveq]
    | ok b =>
      cases b with
      | false => simp [hveq]
      | true =>
        cases hidx : lookupAssoc w.packages_by_name dependency.name with
        | none =>
          rcases hmp : v.visit_missing_package s₁ dependency.name with ⟨s₂, r⟩
          simpa [hveq, hidx, hmp] using Outcome.ofExcept_ne_panicked r
        | some dep_package =>
          have hdp : dep_package.plain = true := by
            have h1 := hw
            rw [FeatureWalker.plain, List.all_eq_true] at h1
            exact h1 (dependency.name, dep_package) (lookupAssoc_mem hidx)
          have hdf : ∀ f ∈ dependency.features, (FeatureValue.new f).isFeature = true := by
            have h1 := hp
            rw [Package.plain, Bool.and_eq_true] at h1
            have h1 := h1.1
            rw [List.all_eq_true] at h1
            have h2 := h1 dependency (get_dependency_mem hd)
            rw [Dependency.featuresPlain, List.all_eq_true] at h2
            exact h2
          have hxne := hrec dep_package (FeatureValue.new dep_feature) s₁ hdp
            (FeatureValue.segmentPlain_of_isFeature hseg)
          simp only [hveq, hidx, hseg, if_true]
          cases hx : (recur dep_package (FeatureValue.new dep_feature) s₁).out with
          | ok =>
            cases weak with
            | true => simp [hx, WalkOut.withEvent]
            | false =>
              simp only [hx, WalkOut.withEvent, Bool.false_eq_true, if_false]
              exact walk_assert_features_loop_no_panic hrec hdp dependency.features hdf _
          | err e => simp [hx, WalkOut.withEvent]
          | panicked => exact absurd hx hxne
          | outOfFuel => simp [hx, WalkOut.withEvent]

/-- On a plain walker, `walk_feature_value` never panics at any fuel, for any
plain package and any token whose segment is plain: the internal assertions
of the walk cannot fire. -/
theorem walk_feature_value_no_panic (w : FeatureWalker) (v : FeatureVisitor σ ε)
    (hw : w.plain = true) :
    ∀ (n : Nat) (package : Package) (fv : FeatureValue) (s : σ), package.plain = true →
      fv.segmentPlain = true →
      (w.walk_feature_value v n package fv s).out ≠ Outcome.panicked := by
  intro n
  induction n with
  | zero =>
    intro package fv s _ _
    intro h
    exact Outcome.noConfusion h
  | succ n ih =>
    intro package fv s hp hfv
    cases fv with
    | Feature feature_name =>
      exact walk_feature_body_no_panic v ih hp feature_name s
    | Dep dep_name =>
      exact walk_dep_body_no_panic w v ih hw hp dep_name s
    | DepFeature dep_name dep_feature weak =>
      exact walk_dep_feature_body_no_panic w v ih hw hp dep_name
        (by simpa [FeatureValue.segmentPlain] using hfv) weak s

/-- On a plain walker and plain package, `walk_package_features` never
panics. -/
theorem walk_package_features_no_panic (w : FeatureWalker) (v : FeatureVisitor σ ε)
    (hw : w.plain = true) (n : Nat) {package : Package} (hp : package.plain = true)
    (feature_names : List String) :
    ∀ s : σ,
      (w.walk_package_features v n package feature_names s).out ≠ Outcome.panicked := by
  induction feature_names with
  | nil => intro s; simp [FeatureWalker.walk_package_features]
  | cons name rest ih =>
    intro s
    have hwf : (w.walk_feature v n package name s).out ≠ Outcome.panicked :=
      walk_feature_body_no_panic v (walk_feature_value_no_panic w v hw n) hp name s
    simp only [FeatureWalker.walk_package_features]
    cases hx : (w.walk_feature v n package name s).out with
    | ok =>
      simp only [hx]
      exact ih _
    | err e => simp [hx]
    | panicked => exact absurd hx hwf
    | outOfFuel => simp [hx]

end NoPanic

/-- C8: under the precondition that every dependency's manifest-requested
feature string and every `dep_feature` segment parse as plain `Feature`s,
the internal assertions of `walk_dep` and `walk_dep_feature` never fail (no
walk can end in the `panicked` status); and on an input violating the
precondition — a dependency feature string containing `/` — the walk panics
via assertion failure instead of returning an error. -/
theorem C8_assertions_safe_on_plain_input_panic_otherwise :
    (∀ (σ ε : Type) (w : FeatureWalker) (v : FeatureVisitor σ ε) (n : Nat)
      (package : Package) (feature_names : List String) (s : σ),
      w.plain = true → package.plain = true →
      (w.walk_package_features v n package feature_names s).out ≠ Outcome.panicked) ∧
    exPkgBad.plain = false ∧
    ((FeatureWalker.new exMetaBad).walk_package_features unitVisitor 5 exPkgBad ["f"]
        ()).out = Outcome.panicked :=
  ⟨fun _ _ w v n package feature_names s hw hp =>
    walk_package_features_no_panic w v hw n hp feature_names s,
   by decide, by decide⟩

/-- Witness for C8: `exMeta` satisfies the precondition and a full walk of
`exPkg`'s features cannot panic. -/
theorem C8_assertions_safe_on_plain_input_panic_otherwise_witness :
    (FeatureWalker.new exMeta).plain = true ∧ exPkg.plain = true ∧
    ((FeatureWalker.new exMeta).walk_package_features unitVisitor 10 exPkg
      ["default", "opt", "strong", "weak"] ()).out ≠ Outcome.panicked :=
  ⟨by decide, by decide,
   C8_assertions_safe_on_plain_input_panic_otherwise.1 Unit Unit (FeatureWalker.new exMeta)
     unitVisitor 10 exPkg ["default", "opt", "strong", "weak"] () (by decide) (by decide)⟩

end CargoMetadata
